import Mathlib

/-!
Verification development for the Vintage Story modlist-creator pipeline
(`json_export.py`).  The Python program is shallowly embedded: parsed JSON
values become the inductive `JsonVal` (Python `None` is `JsonVal.null`,
JSON objects are insertion-ordered association lists with distinct keys,
exactly as CPython dicts behave for values produced by `json.loads`);
functions that can raise an uncaught Python exception return
`Except PyExc _`; the filesystem and the remote catalog are explicit
inputs.  JSON numbers are modelled as integers (the descriptors the
pipeline reads use string and integer fields).
-/

/-- Uncaught Python exception classes that the embedded code can raise. -/
inductive PyExc where
  | typeError
  | attributeError
  | keyError
  | ioError
  | unicodeDecodeError
  | valueError
deriving DecidableEq, Repr

/-- A parsed JSON value as produced by Python `json.loads`: `null` is Python
`None`; objects keep insertion order and have pairwise-distinct keys. -/
inductive JsonVal where
  | null : JsonVal
  | bool : Bool → JsonVal
  | num : Int → JsonVal
  | str : String → JsonVal
  | arr : List JsonVal → JsonVal
  | obj : List (String × JsonVal) → JsonVal

/-- A Python dict with string keys, as an insertion-ordered association list. -/
abbrev PyDict := List (String × JsonVal)

/-- `d.get(k)`: the value bound to `k`, or Python `None` absent a binding. -/
def dictGetOpt (d : PyDict) (k : String) : Option JsonVal :=
  match d.find? (fun kv => kv.1 == k) with
  | some kv => some kv.2
  | none => none

/-- `d.get(k, dflt)`. -/
def dictGetD (d : PyDict) (k : String) (dflt : JsonVal) : JsonVal :=
  (dictGetOpt d k).getD dflt

/-- `d[k] = v`: overwrite in place when the key exists (CPython keeps the
key's original position), append otherwise. -/
def dictSet (d : PyDict) (k : String) (v : JsonVal) : PyDict :=
  match d with
  | [] => [(k, v)]
  | (k0, v0) :: rest =>
    if k0 == k then (k0, v) :: rest else (k0, v0) :: dictSet rest k v

/-- `d.update(us)`: `dictSet` each pair of `us` in order. -/
def dictUpdate (d : PyDict) (us : List (String × JsonVal)) : PyDict :=
  us.foldl (fun acc kv => dictSet acc kv.1 kv.2) d

/-- `del d[k]` for a key known to be present: drop the first binding of `k`. -/
def dictRemove (d : PyDict) (k : String) : PyDict :=
  match d with
  | [] => []
  | (k0, v0) :: rest =>
    if k0 == k then rest else (k0, v0) :: dictRemove rest k

/-- `k in d` for a dict. -/
def dictHas (d : PyDict) (k : String) : Bool :=
  (dictGetOpt d k).isSome

/-- Python truthiness of a parsed-JSON value: `None`, `False`, `0`, `""`,
`[]` and the empty dict are falsy, everything else is truthy. -/
def pyTruthy : JsonVal → Bool
  | .null => false
  | .bool b => b
  | .num n => n != 0
  | .str s => s != ""
  | .arr xs => !xs.isEmpty
  | .obj kvs => !kvs.isEmpty

mutual

/-- Nesting depth of a parsed-JSON value (at least 1). -/
def jsonDepth : JsonVal → Nat
  | .arr xs => jsonDepthList xs + 1
  | .obj kvs => jsonDepthKvs kvs + 1
  | _ => 1

/-- Largest depth among list elements. -/
def jsonDepthList : List JsonVal → Nat
  | [] => 0
  | x :: rest => max (jsonDepth x) (jsonDepthList rest)

/-- Largest depth among dict values. -/
def jsonDepthKvs : List (String × JsonVal) → Nat
  | [] => 0
  | kv :: rest => max (jsonDepth kv.2) (jsonDepthKvs rest)

end

/-- Python `==` on parsed-JSON values, with recursion depth bounded by
`fuel` (the caller supplies the left value's depth, which always
suffices): structural, with the numeric tower identifying `True`/`False`
with `1`/`0`, lists compared element-wise, and dicts compared as maps —
equal key sets with `==`-equal values, insertion order ignored. -/
def pyEqFuel : Nat → JsonVal → JsonVal → Bool
  | 0, _, _ => false
  | fuel + 1, a, b =>
    match a, b with
    | .null, .null => true
    | .bool x, .bool y => x == y
    | .bool x, .num n => (if x then (1 : Int) else 0) == n
    | .num n, .bool y => n == (if y then (1 : Int) else 0)
    | .num x, .num y => x == y
    | .str x, .str y => x == y
    | .arr xs, .arr ys =>
      xs.length == ys.length && (List.zip xs ys).all (fun p => pyEqFuel fuel p.1 p.2)
    | .obj xs, .obj ys =>
      xs.length == ys.length &&
      xs.all (fun kv =>
        match ys.find? (fun kv2 => kv2.1 == kv.1) with
        | some kv2 => pyEqFuel fuel kv.2 kv2.2
        | none => false)
    | _, _ => false

/-- Python `==` on parsed-JSON values. -/
def pyEq (a b : JsonVal) : Bool := pyEqFuel (jsonDepth a) a b

/-- ASCII lower-casing, the effect of Python `str.lower()` on the ASCII
identifiers and tags this program handles. -/
def pyLowerChar (c : Char) : Char :=
  if 'A' ≤ c ∧ c ≤ 'Z' then Char.ofNat (c.toNat + 32) else c

/-- `s.lower()` (ASCII range). -/
def pyLower (s : String) : String :=
  String.mk (s.data.map pyLowerChar)

/-- `s.replace(old, new)` for single-character patterns, which is how the
program uses it (removing spaces). -/
def pyReplaceChar (s : String) (old : Char) (new : List Char) : String :=
  String.mk (s.data.flatMap (fun c => if c == old then new else [c]))

/-- Does `needle` occur as a contiguous substring of `hay` (Python `in`)? -/
def listIsSub (needle hay : List Char) : Bool :=
  match hay with
  | [] => needle.isEmpty
  | _ :: rest => hay.take needle.length == needle || listIsSub needle rest

/-- Python `needle in hay` on strings. -/
def strContains (hay needle : String) : Bool :=
  listIsSub needle.data hay.data

/-- The character `{`. -/
def lcurly : Char := Char.ofNat 123

/-- The character `}`. -/
def rcurly : Char := Char.ofNat 125

/-- Python `repr` of a string: single-quoted unless the string contains a
single quote and no double quote, with backslash/quote/control escapes. -/
def pyReprStrChar (q : Char) (c : Char) : List Char :=
  if c = '\\' then ['\\', '\\']
  else if c = q then ['\\', q]
  else if c = '\n' then ['\\', 'n']
  else if c = '\r' then ['\\', 'r']
  else if c = '\t' then ['\\', 't']
  else if c.toNat < 32 ∨ c.toNat = 127 then
    ['\\', 'x', Nat.digitChar (c.toNat / 16), Nat.digitChar (c.toNat % 16)]
  else [c]

mutual

/-- Python `str()` of a parsed-JSON value, as interpolated by an f-string. -/
def pyStr : JsonVal → String
  | .null => "None"
  | .bool b => if b then "True" else "False"
  | .num n => toString n
  | .str s => s
  | .arr xs => "[" ++ pyReprList xs ++ "]"
  | .obj kvs => String.mk [lcurly] ++ pyReprObj kvs ++ String.mk [rcurly]

/-- Python `repr()` of a parsed-JSON value. -/
def pyRepr : JsonVal → String
  | .null => "None"
  | .bool b => if b then "True" else "False"
  | .num n => toString n
  | .str s =>
    let q : Char := if s.data.contains '\'' ∧ ¬ s.data.contains '"' then '"' else '\''
    String.mk (q :: s.data.flatMap (pyReprStrChar q) ++ [q])
  | .arr xs => "[" ++ pyReprList xs ++ "]"
  | .obj kvs => String.mk [lcurly] ++ pyReprObj kvs ++ String.mk [rcurly]

/-- Comma-separated `repr`s of list elements. -/
def pyReprList : List JsonVal → String
  | [] => ""
  | [x] => pyRepr x
  | x :: rest => pyRepr x ++ ", " ++ pyReprList rest

/-- Comma-separated `repr`s of dict items. -/
def pyReprObj : List (String × JsonVal) → String
  | [] => ""
  | [(k, v)] => pyRepr (.str k) ++ ": " ++ pyRepr v
  | (k, v) :: rest => pyRepr (.str k) ++ ": " ++ pyRepr v ++ ", " ++ pyReprObj rest

end

/-- The whitespace class of Python's regex `\s` on text (the characters the
program's inputs can contain: ASCII and Latin-1 whitespace). -/
def isPyWs (c : Char) : Bool :=
  c = ' ' ∨ c = '\t' ∨ c = '\n' ∨ c = '\r' ∨ c = '\x0b' ∨ c = '\x0c' ∨
  c = '\x1c' ∨ c = '\x1d' ∨ c = '\x1e' ∨ c = '\x1f' ∨ c = '\x85' ∨ c = '\xa0'

/-- One attempt of the multiline regex `^\s*//[^\n]*$` at a line-start
position: a maximal whitespace run (which may span whole blank lines), then
`//`, then the rest of that line; returns the remainder after the match,
which begins at the comment line's newline (or is empty at end of input). -/
def commentMatch (s : List Char) : Option (List Char) :=
  let ws := s.dropWhile isPyWs
  if ws.take 2 = ['/', '/'] then some ((ws.drop 2).dropWhile (fun c => c ≠ '\n'))
  else none

/-- The comment-stripping substitution
`re.sub(r'^\s*//[^\n]*$', '', s, flags=re.MULTILINE)`: scanning left to
right, at each line-start position a match is replaced by nothing and
scanning resumes after it; all other characters are copied.  `atStart`
records whether the current position is a line start (start of input or
just after a newline).  Every step consumes at least one character, so the
`fuel` supplied by `commentStrip` never runs out. -/
def commentStripGo : Nat → List Char → Bool → List Char
  | 0, s, _ => s
  | fuel + 1, s, atStart =>
    if atStart ∧ (commentMatch s).isSome then
      commentStripGo fuel ((commentMatch s).getD []) false
    else
      match s with
      | [] => []
      | c :: rest => c :: commentStripGo fuel rest (c = '\n')

/-- Stage one of `fix_json`: remove single-line comments. -/
def commentStrip (s : String) : String :=
  String.mk (commentStripGo (s.data.length + 1) s.data true)

/-- Is this (optional) character a closing brace or bracket, i.e. in the
regex class `[}\]]`? -/
def isCloser : Option Char → Bool
  | some b => b = rcurly ∨ b = ']'
  | none => false

/-- The trailing-comma substitution `re.sub(r',\s*([}\]])', r'\1', s)`:
a comma whose following characters are a (maximal) whitespace run and then
a closing brace or bracket is deleted together with that whitespace, the
bracket is kept, and scanning resumes after the bracket.  Every step
consumes at least one character, so the `fuel` supplied by `commaFix`
never runs out. -/
def commaFixGo : Nat → List Char → List Char
  | 0, s => s
  | fuel + 1, s =>
    match s with
    | [] => []
    | c :: rest =>
      if c = ',' ∧ isCloser (rest.dropWhile isPyWs).head? then
        (rest.dropWhile isPyWs).headD c :: commaFixGo fuel (rest.dropWhile isPyWs).tail
      else c :: commaFixGo fuel rest

/-- Stage two of `fix_json`: remove trailing commas before `}` or `]`. -/
def commaFix (s : String) : String :=
  String.mk (commaFixGo (s.data.length + 1) s.data)

/-- Does the text contain, at any position, a comma whose next
non-whitespace character is `}` or `]` (the pattern `,\s*[}\]]`)? -/
def hasTrailingCommaPat : List Char → Bool
  | [] => false
  | c :: rest =>
    (c = ',' && isCloser (rest.dropWhile isPyWs).head?) || hasTrailingCommaPat rest

/-- Does the text contain a line whose first non-whitespace characters are
`//` (reachable by the multiline anchor, whitespace runs spanning blank
lines included)? -/
def hasCommentPat (s : List Char) (atStart : Bool) : Bool :=
  match s with
  | [] => false
  | c :: rest =>
    (atStart && (commentMatch s).isSome) || hasCommentPat rest (c = '\n')

/-- Without the textual pattern `,\s*[}\]]` anywhere, the trailing-comma
substitution is the identity: no comma is removed. -/
theorem commaFixGo_id (fuel : Nat) (s : List Char)
    (h : hasTrailingCommaPat s = false) : commaFixGo fuel s = s := by
  induction fuel generalizing s with
  | zero => rfl
  | succ fuel ih =>
    cases s with
    | nil => rfl
    | cons c rest =>
      rw [hasTrailingCommaPat] at h
      simp only [Bool.or_eq_false_iff, Bool.and_eq_false_iff] at h
      have hcond : ¬ (c = ',' ∧ isCloser (rest.dropWhile isPyWs).head? = true) := by
        rintro ⟨h1, h2⟩
        rcases h.1 with h3 | h3
        · rw [h1] at h3; simp at h3
        · rw [h3] at h2; exact Bool.false_ne_true h2
      rw [commaFixGo, if_neg hcond, ih rest h.2]

/-- Without any line whose first non-whitespace characters are `//`, the
comment-stripping substitution is the identity: every line is untouched. -/
theorem commentStripGo_id (fuel : Nat) (s : List Char) (b : Bool)
    (h : hasCommentPat s b = false) : commentStripGo fuel s b = s := by
  induction fuel generalizing s b with
  | zero => rfl
  | succ fuel ih =>
    cases s with
    | nil =>
      have : ¬ (b = true ∧ (commentMatch []).isSome = true) := by
        rintro ⟨-, h2⟩
        simp [commentMatch] at h2
      rw [commentStripGo, if_neg this]
    | cons c rest =>
      rw [hasCommentPat] at h
      simp only [Bool.or_eq_false_iff, Bool.and_eq_false_iff] at h
      have hcond : ¬ (b = true ∧ (commentMatch (c :: rest)).isSome = true) := by
        rintro ⟨h1, h2⟩
        rcases h.1 with h3 | h3
        · rw [h1] at h3; simp at h3
        · rw [h3] at h2; exact Bool.false_ne_true h2
      rw [commentStripGo, if_neg hcond, ih rest (c = '\n') h.2]

/-- JSON inter-token whitespace, as accepted by Python `json.loads`. -/
def isJsonWs (c : Char) : Bool :=
  c = ' ' ∨ c = '\t' ∨ c = '\n' ∨ c = '\r'

/-- Value of a hexadecimal digit. -/
def hexVal (c : Char) : Option Nat :=
  if '0' ≤ c ∧ c ≤ '9' then some (c.toNat - 48)
  else if 'a' ≤ c ∧ c ≤ 'f' then some (c.toNat - 87)
  else if 'A' ≤ c ∧ c ≤ 'F' then some (c.toNat - 55)
  else none

/-- Body of a JSON string literal after the opening quote (strict mode, as
`json.loads`): raw control characters are rejected, the short escapes and
`\uXXXX` (with surrogate pairs combined) are decoded.  `acc` holds the
decoded characters in reverse. -/
def parseStrGo (acc : List Char) (s : List Char) : Option (String × List Char) :=
  match s with
  | [] => none
  | c :: rest =>
    if c = '"' then some (String.mk acc.reverse, rest)
    else if c = '\\' then
      match rest with
      | [] => none
      | e :: rest2 =>
        if e = '"' ∨ e = '\\' ∨ e = '/' then parseStrGo (e :: acc) rest2
        else if e = 'b' then parseStrGo ('\x08' :: acc) rest2
        else if e = 'f' then parseStrGo ('\x0c' :: acc) rest2
        else if e = 'n' then parseStrGo ('\n' :: acc) rest2
        else if e = 'r' then parseStrGo ('\r' :: acc) rest2
        else if e = 't' then parseStrGo ('\t' :: acc) rest2
        else if e = 'u' then
          match rest2 with
          | h1 :: h2 :: h3 :: h4 :: rest3 =>
            match hexVal h1, hexVal h2, hexVal h3, hexVal h4 with
            | some a, some b, some c2, some d =>
              let n := ((a * 16 + b) * 16 + c2) * 16 + d
              if 0xD800 ≤ n ∧ n < 0xDC00 then
                match rest3 with
                | e2 :: u2 :: g1 :: g2 :: g3 :: g4 :: rest4 =>
                  if e2 = '\\' ∧ u2 = 'u' then
                    match hexVal g1, hexVal g2, hexVal g3, hexVal g4 with
                    | some a2, some b2, some c3, some d2 =>
                      let m := ((a2 * 16 + b2) * 16 + c3) * 16 + d2
                      if 0xDC00 ≤ m ∧ m < 0xE000 then
                        let cp := 0x10000 + (n - 0xD800) * 1024 + (m - 0xDC00)
                        parseStrGo (Char.ofNat cp :: acc) rest4
                      else none
                    | _, _, _, _ => none
                  else none
                | _ => none
              else if 0xDC00 ≤ n ∧ n < 0xE000 then none
              else parseStrGo (Char.ofNat n :: acc) rest3
            | _, _, _, _ => none
          | _ => none
        else none
    else if c.toNat < 32 then none
    else parseStrGo (c :: acc) rest

/-- Is this an ASCII digit? -/
def isDigitCh (c : Char) : Bool := '0' ≤ c ∧ c ≤ '9'

/-- An unsigned JSON integer literal: `0` or a nonzero digit followed by
digits, not continued by a fraction or exponent (the JSON numbers appearing
in mod descriptors are integers; fractional literals are outside this
model and are not produced by any input considered here). -/
def parseUInt (s : List Char) : Option (Int × List Char) :=
  let digits := s.takeWhile isDigitCh
  let rest := s.dropWhile isDigitCh
  if digits.isEmpty then none
  else if digits.head? = some '0' ∧ digits.length > 1 then none
  else
    match rest with
    | c :: _ => if c = '.' ∨ c = 'e' ∨ c = 'E' then none
                else some ((digits.foldl (fun n c => n * 10 + (c.toNat - 48)) 0 : Nat), rest)
    | [] => some ((digits.foldl (fun n c => n * 10 + (c.toNat - 48)) 0 : Nat), rest)

/-- A JSON number literal (integer). -/
def parseNum (s : List Char) : Option (Int × List Char) :=
  match s with
  | c :: rest =>
    if c = '-' then (parseUInt rest).map (fun p => (-p.1, p.2))
    else parseUInt s
  | [] => none

mutual

/-- One JSON value, in the grammar accepted by Python `json.loads`:
leading whitespace skipped, then a string, literal, number, array or
object.  `fuel` only bounds recursion depth; `pyJsonLoads` supplies enough
for any input. -/
def parseVal : Nat → List Char → Option (JsonVal × List Char)
  | 0, _ => none
  | fuel + 1, s =>
    match s.dropWhile isJsonWs with
    | [] => none
    | c :: rest =>
      if c = '"' then (parseStrGo [] rest).map (fun p => (.str p.1, p.2))
      else if c = 't' then
        if rest.take 3 = ['r', 'u', 'e'] then some (.bool true, rest.drop 3) else none
      else if c = 'f' then
        if rest.take 4 = ['a', 'l', 's', 'e'] then some (.bool false, rest.drop 4) else none
      else if c = 'n' then
        if rest.take 3 = ['u', 'l', 'l'] then some (.null, rest.drop 3) else none
      else if c = '[' then
        match rest.dropWhile isJsonWs with
        | b :: tail => if b = ']' then some (.arr [], tail) else parseArrItems fuel rest []
        | [] => none
      else if c = lcurly then
        match rest.dropWhile isJsonWs with
        | b :: tail => if b = rcurly then some (.obj [], tail) else parseObjItems fuel rest []
        | [] => none
      else (parseNum (c :: rest)).map (fun p => (.num p.1, p.2))

/-- Comma-separated array elements up to the closing bracket; `acc` holds
parsed elements in reverse. -/
def parseArrItems : Nat → List Char → List JsonVal → Option (JsonVal × List Char)
  | 0, _, _ => none
  | fuel + 1, s, acc =>
    match parseVal fuel s with
    | none => none
    | some (v, rest) =>
      match rest.dropWhile isJsonWs with
      | c :: tail =>
        if c = ',' then parseArrItems fuel tail (v :: acc)
        else if c = ']' then some (.arr (v :: acc).reverse, tail)
        else none
      | [] => none

/-- Comma-separated `"key": value` members up to the closing brace; a
duplicated key keeps its first position with the later value, as in a
CPython dict. -/
def parseObjItems : Nat → List Char → PyDict → Option (JsonVal × List Char)
  | 0, _, _ => none
  | fuel + 1, s, acc =>
    match s.dropWhile isJsonWs with
    | c :: rest =>
      if c = '"' then
        match parseStrGo [] rest with
        | some (k, rest2) =>
          match rest2.dropWhile isJsonWs with
          | c2 :: rest4 =>
            if c2 = ':' then
              match parseVal fuel rest4 with
              | some (v, rest5) =>
                match rest5.dropWhile isJsonWs with
                | c3 :: rest7 =>
                  if c3 = ',' then parseObjItems fuel rest7 (dictSet acc k v)
                  else if c3 = rcurly then some (.obj (dictSet acc k v), rest7)
                  else none
                | [] => none
              | none => none
            else none
          | [] => none
        | none => none
      else none
    | [] => none

end

/-- Python `json.loads` on the descriptor texts this program handles: parse
one value, then require only whitespace to the end of input. -/
def pyJsonLoads (s : String) : Option JsonVal :=
  match parseVal (s.data.length + 1) s.data with
  | some (v, rest) => if (rest.dropWhile isJsonWs).isEmpty then some v else none
  | none => none

/-- `n` spaces. -/
def spaces (n : Nat) : String := String.mk (List.replicate n ' ')

/-- `\uXXXX` with lowercase hex digits, as `json.dumps` emits. -/
def uEscape (n : Nat) : List Char :=
  ['\\', 'u', Nat.digitChar (n / 4096 % 16), Nat.digitChar (n / 256 % 16),
   Nat.digitChar (n / 16 % 16), Nat.digitChar (n % 16)]

/-- One character of a dumped JSON string under `ensure_ascii=True` (the
`json.dumps` default used by `fix_json`). -/
def jsonEscChar (c : Char) : List Char :=
  if c = '"' then ['\\', '"']
  else if c = '\\' then ['\\', '\\']
  else if c = '\n' then ['\\', 'n']
  else if c = '\r' then ['\\', 'r']
  else if c = '\t' then ['\\', 't']
  else if c = '\x08' then ['\\', 'b']
  else if c = '\x0c' then ['\\', 'f']
  else if c.toNat < 32 then uEscape c.toNat
  else if c.toNat < 127 then [c]
  else if c.toNat < 0x10000 then uEscape c.toNat
  else
    uEscape (0xD800 + (c.toNat - 0x10000) / 1024) ++
    uEscape (0xDC00 + (c.toNat - 0x10000) % 1024)

/-- A dumped JSON string literal. -/
def jsonQuote (s : String) : String :=
  "\"" ++ String.mk (s.data.flatMap jsonEscChar) ++ "\""

mutual

/-- `json.dumps(v, indent=2)` at the given current indentation. -/
def pyDumps2 : JsonVal → Nat → String
  | .null, _ => "null"
  | .bool b, _ => if b then "true" else "false"
  | .num n, _ => toString n
  | .str s, _ => jsonQuote s
  | .arr [], _ => "[]"
  | .arr (x :: xs), ind =>
    "[\n" ++ pyDumpsArr (x :: xs) (ind + 2) ++ "\n" ++ spaces ind ++ "]"
  | .obj [], _ => String.mk [lcurly, rcurly]
  | .obj (kv :: kvs), ind =>
    String.mk [lcurly] ++ "\n" ++ pyDumpsObj (kv :: kvs) (ind + 2) ++ "\n" ++
    spaces ind ++ String.mk [rcurly]

/-- Array elements, one per line at indentation `ind`, joined by `,\n`. -/
def pyDumpsArr : List JsonVal → Nat → String
  | [], _ => ""
  | [x], ind => spaces ind ++ pyDumps2 x ind
  | x :: rest, ind => spaces ind ++ pyDumps2 x ind ++ ",\n" ++ pyDumpsArr rest ind

/-- Object members, one per line at indentation `ind`, joined by `,\n`. -/
def pyDumpsObj : List (String × JsonVal) → Nat → String
  | [], _ => ""
  | [(k, v)], ind => spaces ind ++ jsonQuote k ++ ": " ++ pyDumps2 v ind
  | (k, v) :: rest, ind =>
    spaces ind ++ jsonQuote k ++ ": " ++ pyDumps2 v ind ++ ",\n" ++ pyDumpsObj rest ind

end

/-- `json.dumps(v, indent=2)`. -/
def pyDumps (v : JsonVal) : String := pyDumps2 v 0

mutual

/-- `sanitize_json_data`: recursively replace `None` (JSON null) values by
empty strings; dicts and lists are walked element-wise, all other scalars
pass through unchanged. -/
def sanitizeJsonData : JsonVal → JsonVal
  | .null => .str ""
  | .obj kvs => .obj (sanitizeKvs kvs)
  | .arr xs => .arr (sanitizeArr xs)
  | v => v

/-- `sanitize_json_data` over list elements. -/
def sanitizeArr : List JsonVal → List JsonVal
  | [] => []
  | x :: rest => sanitizeJsonData x :: sanitizeArr rest

/-- `sanitize_json_data` over dict values. -/
def sanitizeKvs : List (String × JsonVal) → List (String × JsonVal)
  | [] => []
  | (k, v) :: rest => (k, sanitizeJsonData v) :: sanitizeKvs rest

end

/-- The string `fix_json` returns when parsing fails. -/
def errSentinel : String := "Error: Invalid JSON data"

/-- `fix_json`: strip comment lines, strip trailing commas, parse; on parse
failure return the fixed sentinel string.  Otherwise sanitize, run
`if "website" in data: del data["website"]` — Python `in` is key lookup on
a dict, element equality on a list, substring on a string, and a
`TypeError` on a number or boolean; `del data["website"]` is only valid on
a dict and is a `TypeError` on a string or list — and dump the result with
`indent=2`. -/
def fixJson (s : String) : Except PyExc String :=
  let repaired := commaFix (commentStrip s)
  match pyJsonLoads repaired with
  | none => .ok errSentinel
  | some parsed =>
    match sanitizeJsonData parsed with
    | .obj kvs =>
      if dictHas kvs "website" then .ok (pyDumps (.obj (dictRemove kvs "website")))
      else .ok (pyDumps (.obj kvs))
    | .arr xs =>
      if xs.any (fun x => pyEq x (.str "website")) then .error .typeError
      else .ok (pyDumps (.arr xs))
    | .str s2 =>
      if strContains s2 "website" then .error .typeError
      else .ok (pyDumps (.str s2))
    | .num _ => .error .typeError
    | .bool _ => .error .typeError
    | .null => .error .typeError

/-- `MOD_API_BASE`. -/
def MOD_API_BASE : String := "https://mods.vintagestory.at/api/mod/"

/-- `MOD_DB_URL`. -/
def MOD_DB_URL : String := "https://mods.vintagestory.at/show/mod/"

/-- `MOD_DOWNLOAD_BASE`. -/
def MOD_DOWNLOAD_BASE : String := "https://moddbcdn.vintagestory.at/"

/-- `{k.lower(): v for k, v in modinfo.items()}`: keys lower-cased in
insertion order; on a collision the later binding overwrites the earlier
one, which keeps its position, as in a CPython dict comprehension. -/
def lowerKeys (kvs : PyDict) : PyDict :=
  kvs.foldl (fun acc kv => dictSet acc (pyLower kv.1) kv.2) []

/-- `get_modinfo_from_zip`, given the outcome of locating and reading the
archive's `modinfo.json` entry: `none` means the entry is absent (the
early-return path), `.error` means opening or reading raised (swallowed by
the blanket `except Exception`), `.ok raw` is the decoded entry text.
Every failure inside the reader — including `fix_json` raising, the parse
of its output failing, or `.items()` on a non-dict — is caught and yields
the all-`None` tuple `(modid, name, version, mod_url_api, description)`. -/
def getModinfoFromZip (entry : Option (Except PyExc String)) :
    JsonVal × JsonVal × JsonVal × JsonVal × JsonVal :=
  match entry with
  | none => (.null, .null, .null, .null, .null)
  | some (.error _) => (.null, .null, .null, .null, .null)
  | some (.ok raw) =>
    match fixJson raw with
    | .error _ => (.null, .null, .null, .null, .null)
    | .ok fixedStr =>
      match pyJsonLoads fixedStr with
      | none => (.null, .null, .null, .null, .null)
      | some (.obj kvs) =>
        let lower := lowerKeys kvs
        (dictGetD lower "modid" .null,
         dictGetD lower "name" .null,
         dictGetD lower "version" .null,
         .str (MOD_API_BASE ++ pyStr (dictGetD lower "modid" .null)),
         dictGetD lower "description" .null)
      | some _ => (.null, .null, .null, .null, .null)

/-- ASCII word characters, the regex class `[A-Za-z0-9_]`. -/
def isWordCh (c : Char) : Bool :=
  ('A' ≤ c ∧ c ≤ 'Z') ∨ ('a' ≤ c ∧ c ≤ 'z') ∨ ('0' ≤ c ∧ c ≤ '9') ∨ c = '_'

/-- One attempt of `key\s*=\s*"([^"]+)"` at a fixed position: the literal
key, optional whitespace, `=`, optional whitespace, then a quoted capture
of at least one non-quote character with its closing quote present. -/
def matchAssignAt (key : List Char) (s : List Char) : Option String :=
  if s.take key.length = key then
    match (s.drop key.length).dropWhile isPyWs with
    | c :: r2 =>
      if c = '=' then
        match r2.dropWhile isPyWs with
        | q :: r4 =>
          if q = '"' then
            let cap := r4.takeWhile (fun c2 => c2 ≠ '"')
            if cap.isEmpty then none
            else
              match r4.dropWhile (fun c2 => c2 ≠ '"') with
              | _ :: _ => some (String.mk cap)
              | [] => none
          else none
        | [] => none
      else none
    | [] => none
  else none

/-- `re.search` of `key\s*=\s*"([^"]+)"`: the captured group of the
leftmost match, or `None`. -/
def searchAssign (key : List Char) (s : List Char) : Option String :=
  match s with
  | [] => none
  | _ :: rest =>
    match matchAssignAt key s with
    | some cap => some cap
    | none => searchAssign key rest

/-- One attempt of `namespace\s+([A-Za-z0-9_]+)` at a fixed position. -/
def matchNamespaceAt (s : List Char) : Option String :=
  let kw := "namespace".data
  if s.take kw.length = kw then
    let r1 := s.drop kw.length
    if (r1.takeWhile isPyWs).isEmpty then none
    else
      let cap := (r1.dropWhile isPyWs).takeWhile isWordCh
      if cap.isEmpty then none else some (String.mk cap)
  else none

/-- `re.search` of `namespace\s+([A-Za-z0-9_]+)`: the captured group of
the leftmost match, or `None`. -/
def searchNamespaceTok (s : List Char) : Option String :=
  match s with
  | [] => none
  | _ :: rest =>
    match matchNamespaceAt s with
    | some cap => some cap
    | none => searchNamespaceTok rest

/-- `get_cs_info`, given the outcome of opening and reading the `.cs`
file.  The body is not wrapped in any `try`, so a read failure propagates
to the caller.  On success the four fields are scraped independently with
`re.search`; `modid` is the namespace lower-cased with spaces removed; the
`mod_url_api` f-string interpolates `str(modid)`, so an absent namespace
yields the text `None` in the URL.  Returns
`(version, side, namespace, modid, mod_url_api, description)`. -/
def getCsInfo (content : Except PyExc String) :
    Except PyExc (Option String × Option String × Option String ×
                  Option String × String × Option String) :=
  match content with
  | .error e => .error e
  | .ok text =>
    let cs := text.data
    let version := searchAssign "Version".data cs
    let side := searchAssign "Side".data cs
    let nmsp := searchNamespaceTok cs
    let description := searchAssign "Description".data cs
    let modid := nmsp.map (fun n => pyReplaceChar (pyLower n) ' ' [])
    let modUrlApi := MOD_API_BASE ++ (match modid with | some m => m | none => "None")
    .ok (version, side, nmsp, modid, modUrlApi, description)

/-- The loop of `get_mainfile_for_version` over a Python list of releases:
first release whose `modversion` (default `[]`) compares `==` to the local
version wins and its `mainfile` (default `None`) is returned; an exhausted
loop returns `None`; a non-dict element raises `AttributeError` at
`release.get`. -/
def mainfileLoop (v : JsonVal) : List JsonVal → Except PyExc JsonVal
  | [] => .ok .null
  | r :: rest =>
    match r with
    | .obj kvs =>
      if pyEq v (dictGetD kvs "modversion" (.arr [])) then .ok (dictGetD kvs "mainfile" .null)
      else mainfileLoop v rest
    | _ => .error .attributeError

/-- `get_mainfile_for_version`: iterate the API releases value.  A JSON
array iterates its elements; iterating a string yields one-character
strings and a dict yields its keys, on which `.get` raises
`AttributeError` (so only the empty ones complete, finding nothing);
`None`, numbers and booleans are not iterable (`TypeError`). -/
def getMainfileForVersion (modVersion : JsonVal) (apiResponse : JsonVal) :
    Except PyExc JsonVal :=
  match apiResponse with
  | .arr releases => mainfileLoop modVersion releases
  | .str s => if s.isEmpty then .ok .null else .error .attributeError
  | .obj kvs => if kvs.isEmpty then .ok .null else .error .attributeError
  | _ => .error .typeError

/-- What the catalog request for one identifier comes back as: one of the
three caught `requests` failures, or a transport-level success carrying
the parsed JSON body. -/
inductive ApiResp where
  | timeout
  | httpError
  | transportError
  | ok (body : JsonVal)

/-- `get_api_info`: the three `requests` failure classes are caught and
fall off the function (Python `None`); a body without a truthy `"mod"`
member is the explicit not-found return `(None, None, None)`; a `KeyError`
while extracting `assetid`/`releases`/`side` is caught and likewise
returns `(None, None, None)`; subscripting a truthy non-dict `"mod"` is an
uncaught `TypeError`, and `.get` on a non-dict body an uncaught
`AttributeError`.  On success returns `(assetid, side, releases)`. -/
def getApiInfo (resp : ApiResp) :
    Except PyExc (Option (JsonVal × JsonVal × JsonVal)) :=
  match resp with
  | .timeout => .ok none
  | .httpError => .ok none
  | .transportError => .ok none
  | .ok body =>
    match body with
    | .obj kvs =>
      if ¬ pyTruthy (dictGetD kvs "mod" .null) then .ok (some (.null, .null, .null))
      else
        match dictGetD kvs "mod" .null with
        | .obj mkvs =>
          match dictGetOpt mkvs "assetid" with
          | none => .ok (some (.null, .null, .null))
          | some assetid =>
            match dictGetOpt mkvs "releases" with
            | none => .ok (some (.null, .null, .null))
            | some releases =>
              match dictGetOpt mkvs "side" with
              | none => .ok (some (.null, .null, .null))
              | some side => .ok (some (assetid, side, releases))
        | _ => .error .typeError
    | _ => .error .attributeError

/-- ASCII letter. -/
def isAsciiAlpha (c : Char) : Bool :=
  ('A' ≤ c ∧ c ≤ 'Z') ∨ ('a' ≤ c ∧ c ≤ 'z')

/-- Characters allowed in a URL scheme after the first letter. -/
def isSchemeCh (c : Char) : Bool :=
  isAsciiAlpha c ∨ ('0' ≤ c ∧ c ≤ '9') ∨ c = '+' ∨ c = '-' ∨ c = '.'

/-- `urllib.parse` input cleaning: strip leading C0-control-or-space
characters, then remove every tab, carriage return and newline. -/
def urlClean (url : List Char) : List Char :=
  (url.dropWhile (fun c => c.toNat ≤ 0x20)).filter
    (fun c => ¬ (c = '\t' ∨ c = '\r' ∨ c = '\n'))

/-- Strip a leading `scheme:` when the text before the first colon is a
nonempty run of scheme characters starting with a letter. -/
def splitScheme (url : List Char) : List Char :=
  match url.findIdx? (fun c => c = ':') with
  | some i =>
    if decide (0 < i) && (match url.head? with | some c => isAsciiAlpha c | none => false)
       && (url.take i).all isSchemeCh
    then url.drop (i + 1) else url
  | none => url

/-- After a leading `//`, the network location runs to the first `/`, `?`
or `#`; otherwise it is empty. -/
def splitNetloc (url : List Char) : List Char × List Char :=
  if url.take 2 = ['/', '/'] then
    let rest := url.drop 2
    (rest.takeWhile (fun c => ¬ (c = '/' ∨ c = '?' ∨ c = '#')),
     rest.dropWhile (fun c => ¬ (c = '/' ∨ c = '?' ∨ c = '#')))
  else ([], url)

/-- Split at the first occurrence of `ch`: the part before it and the part
after it (everything, and nothing, when `ch` is absent). -/
def splitOnFirst (url : List Char) (ch : Char) : List Char × List Char :=
  (url.takeWhile (fun c => c ≠ ch), (url.dropWhile (fun c => c ≠ ch)).tail)

/-- `urlparse`'s parameter split: a `;` inside the last path segment
separates the path from its params. -/
def splitParams (path : List Char) : List Char × List Char :=
  let segF := (path.reverse.takeWhile (fun c => c ≠ '/')).reverse
  if segF.contains ';' then
    let pre := path.take (path.length - segF.length)
    let ab := splitOnFirst segF ';'
    (pre ++ ab.1, ab.2)
  else (path, [])

/-- `urllib.parse.urlparse`, reduced to the components `make_dl_link`
consumes: clean the input, strip the scheme, split off the netloc (raising
`ValueError` on unbalanced square brackets, as CPython does), cut the
fragment at the first `#`, the query at the first `?`, and the params at a
`;` in the last path segment.  Returns `(path, query)`. -/
def pyUrlparse (raw : String) : Except PyExc (String × String) :=
  let u1 := splitScheme (urlClean raw.data)
  let nl := splitNetloc u1
  if nl.1.contains '[' ≠ nl.1.contains ']' then .error .valueError
  else
    let noFrag := (splitOnFirst nl.2 '#').1
    let qsplit := splitOnFirst noFrag '?'
    let pp := splitParams qsplit.1
    .ok (String.mk pp.1, String.mk qsplit.2)

/-- UTF-8 encoding of one character, as a list of byte values. -/
def utf8Bytes (c : Char) : List Nat :=
  let n := c.toNat
  if n < 0x80 then [n]
  else if n < 0x800 then [0xC0 + n / 64, 0x80 + n % 64]
  else if n < 0x10000 then [0xE0 + n / 4096, 0x80 + n / 64 % 64, 0x80 + n % 64]
  else [0xF0 + n / 0x40000, 0x80 + n / 4096 % 64, 0x80 + n / 64 % 64, 0x80 + n % 64]

/-- UTF-8 encoding of a string (`str.encode('utf-8')`). -/
def strUtf8 (s : String) : List Nat := s.data.flatMap utf8Bytes

/-- Uppercase hexadecimal digit. -/
def hexUpper (n : Nat) : Char :=
  if n < 10 then Char.ofNat (48 + n) else Char.ofNat (55 + n)

/-- The bytes `urllib.parse.quote` never encodes regardless of `safe`:
ASCII letters, digits, and `_ . - ~`. -/
def quoteAlwaysSafe (b : Nat) : Bool :=
  (65 ≤ b ∧ b ≤ 90) ∨ (97 ≤ b ∧ b ≤ 122) ∨ (48 ≤ b ∧ b ≤ 57) ∨
  b = 95 ∨ b = 46 ∨ b = 45 ∨ b = 126

/-- One byte under `quote(..., safe="=&")`: kept literal when always-safe
or `=` (61) or `&` (38), percent-encoded with uppercase hex otherwise. -/
def quoteByteEqAmp (b : Nat) : List Char :=
  if quoteAlwaysSafe b ∨ b = 61 ∨ b = 38 then [Char.ofNat b]
  else ['%', hexUpper (b / 16 % 16), hexUpper (b % 16)]

/-- `urllib.parse.quote(s, safe="=&")`: encode to UTF-8, then map each
byte through `quoteByteEqAmp`. -/
def pyQuoteEqAmp (s : String) : String :=
  String.mk ((strUtf8 s).flatMap quoteByteEqAmp)

/-- `make_dl_link`: parse the raw artifact URL, keep its path, re-encode
its query with `quote(..., safe="=&")`, and recompose on the fixed
download host. -/
def makeDlLink (raw : String) : Except PyExc String :=
  match pyUrlparse raw with
  | .error e => .error e
  | .ok pq => .ok (MOD_DOWNLOAD_BASE ++ pq.1 ++ "?" ++ pyQuoteEqAmp pq.2)

/-- Python truthiness of an optional string (`None` or `str`): `None` and
the empty string are falsy. -/
def optTruthy : Option String → Bool
  | none => false
  | some s => s != ""

/-- An optional string as the value stored in a dict: `None` becomes JSON
null. -/
def optJson : Option String → JsonVal
  | none => .null
  | some s => .str s

/-- What one candidate file in the scanned directory presents to the
pipeline: a `.zip` with the outcome of `is_zip_valid` and its
`modinfo.json` outcome (absent / read-raises / text), a `.cs` with its
read outcome, or a file of any other extension.  `is_zip_valid` catches
only `BadZipFile` and `LargeZipFile`, so its outcome is `.ok` with the
integrity-test boolean, or `.error` for an exception it does not catch —
an `OSError` from `zipfile.ZipFile(zip_path)` itself, such as
`IsADirectoryError` for a directory named `*.zip` or `PermissionError`
for an unreadable file — which then propagates out of
`process_mod_file`. -/
inductive CandFile where
  | zip (validity : Except PyExc Bool) (entry : Option (Except PyExc String))
  | cs (content : Except PyExc String)
  | other

/-- One candidate: its file name and its contents. -/
structure Candidate where
  name : String
  file : CandFile

/-- The shared mutable state of `list_mods`: `mods_data["Mods"]` and
`invalid_files`. -/
structure ScanState where
  mods : List PyDict
  invalid : List String

/-- `process_mod_file` for one candidate: dispatch on the extension, run
the matching reader, check the required fields by truthiness, build the
baseline record, resolve against the catalog (`api` maps the identifier
value to that request's outcome), match the version, and append to `mods`
or to `invalid`.  The function body has no exception handler, so an
uncaught exception from a reader or the catalog stage propagates. -/
def processModFile (api : JsonVal → ApiResp) (c : Candidate) (st : ScanState) :
    Except PyExc ScanState :=
  match c.file with
  | .zip validity entry =>
    match validity with
    | .error e => .error e
    | .ok valid =>
      if valid then
        let r := getModinfoFromZip entry
        let modid := r.1
        let nm := r.2.1
        let version := r.2.2.1
        let description := r.2.2.2.2
        if pyTruthy modid && pyTruthy nm && pyTruthy version then
          match getApiInfo (api modid) with
          | .error e => .error e
          | .ok apiRes =>
            let t := apiRes.getD (.null, .null, .arr [])
            let assetid := t.1
            let side := t.2.1
            let releases := t.2.2
            let entry0 : PyDict :=
              [("Name", nm), ("Version", version), ("ModId", modid),
               ("Description", description), ("Side", .str "Unknown"),
               ("url_mod", .str "Local mod only"),
               ("url_download", .str "Local mod only")]
            if pyTruthy assetid then
              match getMainfileForVersion version releases with
              | .error e => .error e
              | .ok mf =>
                if pyTruthy mf then
                  .ok ⟨st.mods ++ [dictUpdate entry0
                        [("Side", side),
                         ("url_mod", .str (MOD_DB_URL ++ pyStr assetid)),
                         ("url_download", mf)]], st.invalid⟩
                else .ok ⟨st.mods ++ [entry0], st.invalid⟩
            else .ok ⟨st.mods ++ [entry0], st.invalid⟩
        else .ok ⟨st.mods, st.invalid ++ [c.name]⟩
      else .ok ⟨st.mods, st.invalid ++ [c.name]⟩
  | .cs content =>
    match getCsInfo content with
    | .error e => .error e
    | .ok r =>
      let version := r.1
      let side0 := r.2.1
      let nmsp := r.2.2.1
      let modid := r.2.2.2.1
      let modUrlDl := r.2.2.2.2.1
      let description := r.2.2.2.2.2
      if optTruthy version && optTruthy side0 && optTruthy nmsp &&
         optTruthy modid && (modUrlDl != "") then
        match getApiInfo (api (.str (modid.getD ""))) with
        | .error e => .error e
        | .ok apiRes =>
          let t := apiRes.getD (.null, .null, .arr [])
          let assetid := t.1
          let side := t.2.1
          let releases := t.2.2
          let entry0 : PyDict :=
            [("Name", .str (nmsp.getD "")), ("Version", .str (version.getD "")),
             ("ModId", .str (modid.getD "")), ("Description", optJson description)]
          if pyTruthy assetid then
            match getMainfileForVersion (.str (version.getD "")) releases with
            | .error e => .error e
            | .ok mf =>
              if pyTruthy mf then
                .ok ⟨st.mods ++ [dictUpdate entry0
                      [("Side", side),
                       ("url_mod", .str (MOD_DB_URL ++ pyStr assetid)),
                       ("url_download", mf)]], st.invalid⟩
              else .ok ⟨st.mods ++ [entry0], st.invalid⟩
          else .ok ⟨st.mods ++ [entry0], st.invalid⟩
      else .ok ⟨st.mods, st.invalid ++ [c.name]⟩
  | .other => .ok st

/-- The sort key of one manifest record,
`mod["ModId"].lower() if mod["ModId"] else ""`: a missing key is a
`KeyError`, a truthy non-string has no `.lower` (`AttributeError`), a
falsy value keys as the empty string. -/
def modKey (r : PyDict) : Except PyExc String :=
  match dictGetOpt r "ModId" with
  | none => .error .keyError
  | some v =>
    if pyTruthy v then
      match v with
      | .str s => .ok (pyLower s)
      | _ => .error .attributeError
    else .ok ""

/-- Code-point-lexicographic string order, Python `<=` on `str`. -/
def lexLeCh : List Char → List Char → Bool
  | [], _ => true
  | _ :: _, [] => false
  | a :: as_, b :: bs =>
    if a.toNat < b.toNat then true
    else if b.toNat < a.toNat then false
    else lexLeCh as_ bs

/-- Insert `x` into an already-sorted list, after every element `y` with
`le y x` — the insertion step of a stable sort. -/
def insertSorted (le : α → α → Bool) (x : α) : List α → List α
  | [] => [x]
  | y :: ys => if le y x then y :: insertSorted le x ys else x :: y :: ys

/-- A stable comparison sort (insertion sort).  For a total preorder this
produces exactly the output of CPython's stable `list.sort`. -/
def pySort (le : α → α → Bool) (l : List α) : List α :=
  l.foldl (fun acc x => insertSorted le x acc) []

/-- `mods_data["Mods"].sort(key=...)`: compute every record's key in list
order (the first raising record aborts the whole sort), then stable-sort
by code-point-lexicographic comparison of the keys. -/
def sortMods (mods : List PyDict) : Except PyExc (List PyDict) :=
  match mods.mapM (fun r => (modKey r).map (fun k => (k, r))) with
  | .error e => .error e
  | .ok keyed =>
    .ok ((pySort (fun a b => lexLeCh a.1.data b.1.data) keyed).map (fun p => p.2))

/-- The output of a completed scan: the sorted record list that
`save_json` serializes, and the invalid file names reported to the
operator. -/
structure Manifest where
  mods : List PyDict
  invalid : List String

/-- `list_mods` from an intermediate state: process the remaining
candidates in order — the first uncaught exception aborts everything after
it, including the sort and the write — then sort and assemble. -/
def listModsFrom (api : JsonVal → ApiResp) (st : ScanState) :
    List Candidate → Except PyExc Manifest
  | [] =>
    match sortMods st.mods with
    | .error e => .error e
    | .ok sorted => .ok ⟨sorted, st.invalid⟩
  | c :: rest =>
    match processModFile api c st with
    | .error e => .error e
    | .ok st2 => listModsFrom api st2 rest

/-- `list_mods`: scan all candidates from the empty state; `.ok` means the
manifest was written. -/
def listMods (api : JsonVal → ApiResp) (cands : List Candidate) :
    Except PyExc Manifest :=
  listModsFrom api ⟨[], []⟩ cands

/-- C1, counterexample.  The claim says any error raised while reading or
resolving one candidate is caught and reported for that candidate only,
every remaining candidate is still processed, and the sorted manifest is
still written.  On a directory holding a `.cs` file whose read raises and
a perfectly good `.zip`, the exception instead propagates out of the scan
and no manifest is produced; the same happens when `is_zip_valid` raises
an uncaught `OSError` opening a `.zip` candidate (e.g. a directory named
`*.zip`). -/
theorem c1_counterexample :
    listMods (fun _ => ApiResp.timeout)
      [⟨"broken.cs", .cs (.error .ioError)⟩,
       ⟨"ok.zip", .zip (.ok true) (some (.ok
         "\x7b\"modid\":\"foo\",\"name\":\"Foo\",\"version\":\"1.0.0\"\x7d"))⟩]
      = .error .ioError
  ∧ listMods (fun _ => ApiResp.timeout)
      [⟨"dir.zip", .zip (.error .ioError) none⟩,
       ⟨"ok.zip", .zip (.ok true) (some (.ok
         "\x7b\"modid\":\"foo\",\"name\":\"Foo\",\"version\":\"1.0.0\"\x7d"))⟩]
      = .error .ioError :=
  ⟨rfl, rfl⟩

/-- C1, amended: errors while reading or parsing a `.zip` candidate's
contents — an archive failing the integrity test (`BadZipFile` /
`LargeZipFile` are caught), a missing descriptor entry, or any exception
while reading or parsing the descriptor — are caught and recorded for
that candidate only, and the scan goes on to produce the sorted manifest.
But an `OSError` raised when `is_zip_valid` opens the `.zip` path (for
instance a directory named `*.zip`, or an unreadable file), exactly like
a failure to open or read a `.cs` candidate, is not caught: the exception
propagates and aborts the scan before the manifest is written. -/
theorem c1_amended :
    (∀ (api : JsonVal → ApiResp) (nm : String) (ent : Option (Except PyExc String))
       (st : ScanState),
       processModFile api ⟨nm, .zip (.ok false) ent⟩ st = .ok ⟨st.mods, st.invalid ++ [nm]⟩)
  ∧ (∀ (api : JsonVal → ApiResp) (nm : String) (st : ScanState),
       processModFile api ⟨nm, .zip (.ok true) none⟩ st = .ok ⟨st.mods, st.invalid ++ [nm]⟩)
  ∧ (∀ (api : JsonVal → ApiResp) (nm : String) (e : PyExc) (st : ScanState),
       processModFile api ⟨nm, .zip (.ok true) (some (.error e))⟩ st
         = .ok ⟨st.mods, st.invalid ++ [nm]⟩)
  ∧ (∀ (api : JsonVal → ApiResp) (nm : String) (e : PyExc) (rest : List Candidate),
       listMods api (⟨nm, .zip (.ok true) (some (.error e))⟩ :: rest)
         = listModsFrom api ⟨[], [nm]⟩ rest)
  ∧ (∀ (api : JsonVal → ApiResp) (nm : String) (e : PyExc)
       (ent : Option (Except PyExc String)) (st : ScanState),
       processModFile api ⟨nm, .zip (.error e) ent⟩ st = .error e)
  ∧ (∀ (api : JsonVal → ApiResp) (nm : String) (e : PyExc)
       (ent : Option (Except PyExc String)) (rest : List Candidate),
       listMods api (⟨nm, .zip (.error e) ent⟩ :: rest) = .error e)
  ∧ (∀ (api : JsonVal → ApiResp) (nm : String) (e : PyExc) (rest : List Candidate),
       listMods api (⟨nm, .cs (.error e)⟩ :: rest) = .error e) :=
  ⟨fun _ _ _ _ => rfl, fun _ _ _ => rfl, fun _ _ _ _ => rfl, fun _ _ _ _ => rfl,
   fun _ _ _ _ _ => rfl, fun _ _ _ _ _ => rfl, fun _ _ _ _ => rfl⟩

/-- C2, counterexample.  The claim says every appended record — from a
`.zip` or from a `.cs` — starts with `Side` `"Unknown"` and the sentinel
`"Local mod only"` in both URL fields.  A `.cs` candidate with all its
required fields, processed while the catalog times out, is appended with
no `Side`, `url_mod` or `url_download` key at all. -/
theorem c2_counterexample :
    listMods (fun _ => ApiResp.timeout)
        [⟨"m.cs", .cs (.ok "namespace Foo\nVersion = \"1.0\"\nSide = \"client\"")⟩]
      = .ok ⟨[[("Name", .str "Foo"), ("Version", .str "1.0"),
               ("ModId", .str "foo"), ("Description", .null)]], []⟩
  ∧ dictGetOpt [("Name", JsonVal.str "Foo"), ("Version", .str "1.0"),
               ("ModId", .str "foo"), ("Description", .null)] "Side" = none
  ∧ dictGetOpt [("Name", JsonVal.str "Foo"), ("Version", .str "1.0"),
               ("ModId", .str "foo"), ("Description", .null)] "url_mod" = none
  ∧ dictGetOpt [("Name", JsonVal.str "Foo"), ("Version", .str "1.0"),
               ("ModId", .str "foo"), ("Description", .null)] "url_download" = none := by
  exact ⟨by rfl, rfl, rfl, rfl⟩

/-- The catalog or version-matching stage fails gracefully for this
request outcome and local version: the request timed out, errored at the
HTTP or transport level, the identifier was not found (no truthy `mod` in
the body), the body's shape lost a `KeyError` (caught), the returned
`assetid` is falsy, or no release's `modversion` tag equals the local
version (or the matched release's `mainfile` is falsy).  Outcomes that
raise an uncaught exception are not in this set. -/
def catalogStageFails (version : JsonVal) (resp : ApiResp) : Bool :=
  match getApiInfo resp with
  | .error _ => false
  | .ok none => true
  | .ok (some t) =>
    if pyTruthy t.1 then
      match getMainfileForVersion version t.2.2 with
      | .ok mf => !pyTruthy mf
      | .error _ => false
    else true

/-- C3.  A candidate that passes its reader stage and then fails at the
catalog or version-matching stage — timeout, HTTP or transport error,
identifier not found, caught `KeyError` shape, or no matching release —
is appended to the manifest with exactly the baseline record its branch
builds (for `.zip`, the placeholder record with `Side` `"Unknown"` and the
sentinel in both URL fields), and is not added to the invalid list. -/
theorem c3_catalog_failures_not_terminal :
    (∀ (api : JsonVal → ApiResp) (nm : String) (ent : Option (Except PyExc String))
       (st : ScanState) (modid nm2 ver u d : JsonVal),
       getModinfoFromZip ent = (modid, nm2, ver, u, d) →
       pyTruthy modid = true → pyTruthy nm2 = true → pyTruthy ver = true →
       catalogStageFails ver (api modid) = true →
       processModFile api ⟨nm, .zip (.ok true) ent⟩ st
         = .ok ⟨st.mods ++
             [[("Name", nm2), ("Version", ver), ("ModId", modid),
               ("Description", d), ("Side", .str "Unknown"),
               ("url_mod", .str "Local mod only"),
               ("url_download", .str "Local mod only")]],
             st.invalid⟩)
  ∧ (∀ (api : JsonVal → ApiResp) (nm : String) (content : String)
       (st : ScanState) (ver sd ns mi : String) (url : String) (d : Option String),
       getCsInfo (.ok content) = .ok (some ver, some sd, some ns, some mi, url, d) →
       ver ≠ "" → sd ≠ "" → ns ≠ "" → mi ≠ "" → url ≠ "" →
       catalogStageFails (.str ver) (api (.str mi)) = true →
       processModFile api ⟨nm, .cs (.ok content)⟩ st
         = .ok ⟨st.mods ++
             [[("Name", .str ns), ("Version", .str ver), ("ModId", .str mi),
               ("Description", optJson d)]],
             st.invalid⟩) := by
  constructor
  · intro api nm ent st modid nm2 ver u d hr h1 h2 h3 hcf
    unfold catalogStageFails at hcf
    simp only [processModFile, hr, h1, h2, h3, Bool.and_self, Bool.and_true, if_true]
    rcases hapi : getApiInfo (api modid) with e | t <;> rw [hapi] at hcf
    · exact absurd hcf (by simp)
    · rcases t with _ | ⟨a, s, r⟩
      · simp [pyTruthy]
      · simp only [Option.getD_some] at hcf ⊢
        by_cases ha : pyTruthy a = true
        · rw [if_pos ha] at hcf
          simp only [ha, if_true]
          rcases hmf : getMainfileForVersion ver r with e2 | mf <;> rw [hmf] at hcf
          · exact absurd hcf (by simp)
          · have hmff : pyTruthy mf = false := by
              rcases hb : pyTruthy mf with _ | _
              · rfl
              · simp [hb] at hcf
            simp [hmff]
        · simp at ha
          simp [ha]
  · intro api nm content st ver sd ns mi url d hr hv hs hn hm hu hcf
    unfold catalogStageFails at hcf
    simp only [processModFile, hr]
    have hchk : (optTruthy (some ver) && optTruthy (some sd) && optTruthy (some ns) &&
        optTruthy (some mi) && (url != "")) = true := by
      simp [optTruthy, hv, hs, hn, hm, hu]
    rw [hchk]
    simp only [if_true, Option.getD_some]
    rcases hapi : getApiInfo (JsonVal.str mi |> api) with e | t <;> rw [hapi] at hcf
    · exact absurd hcf (by simp)
    · rcases t with _ | ⟨a, s, r⟩
      · simp [pyTruthy]
      · simp only [Option.getD_some] at hcf ⊢
        by_cases ha : pyTruthy a = true
        · rw [if_pos ha] at hcf
          simp only [ha, if_true]
          rcases hmf : getMainfileForVersion (.str ver) r with e2 | mf <;> rw [hmf] at hcf
          · exact absurd hcf (by simp)
          · have hmff : pyTruthy mf = false := by
              rcases hb : pyTruthy mf with _ | _
              · rfl
              · simp [hb] at hcf
            simp [hmff]
        · simp at ha
          simp [ha]

/-- C3, witness: a `.zip` and a `.cs` candidate with complete local fields
whose catalog request times out are both appended with their baseline
record and do not land in the invalid list. -/
theorem c3_witness :
    processModFile (fun _ => ApiResp.timeout)
        ⟨"m.zip", .zip (.ok true) (some (.ok
          "\x7b\"modid\":\"foo\",\"name\":\"Foo\",\"version\":\"1.0.0\"\x7d"))⟩ ⟨[], []⟩
      = .ok ⟨[[("Name", .str "Foo"), ("Version", .str "1.0.0"), ("ModId", .str "foo"),
               ("Description", .null), ("Side", .str "Unknown"),
               ("url_mod", .str "Local mod only"),
               ("url_download", .str "Local mod only")]], []⟩
  ∧ processModFile (fun _ => ApiResp.timeout)
        ⟨"m.cs", .cs (.ok "namespace Bar\nVersion = \"2.0\"\nSide = \"server\"")⟩ ⟨[], []⟩
      = .ok ⟨[[("Name", .str "Bar"), ("Version", .str "2.0"), ("ModId", .str "bar"),
               ("Description", .null)]], []⟩ := by
  have hz := c3_catalog_failures_not_terminal.1 (fun _ => ApiResp.timeout) "m.zip"
    (some (.ok "\x7b\"modid\":\"foo\",\"name\":\"Foo\",\"version\":\"1.0.0\"\x7d"))
    ⟨[], []⟩ (.str "foo") (.str "Foo") (.str "1.0.0")
    (.str "https://mods.vintagestory.at/api/mod/foo") .null
    (by rfl) (by rfl) (by rfl) (by rfl) (by rfl)
  have hc := c3_catalog_failures_not_terminal.2 (fun _ => ApiResp.timeout) "m.cs"
    "namespace Bar\nVersion = \"2.0\"\nSide = \"server\"" ⟨[], []⟩
    "2.0" "server" "Bar" "bar" "https://mods.vintagestory.at/api/mod/bar" none
    (by rfl) (by decide) (by decide) (by decide) (by decide) (by decide) (by rfl)
  exact ⟨hz, hc⟩

/-- C2, amended.  A record appended from a `.zip` archive starts with
`Side` `"Unknown"` and the sentinel `"Local mod only"` in both `url_mod`
and `url_download`; a record appended from a `.cs` file has none of those
three keys at all; and in either branch the three fields are only ever
overwritten (or added) together as one triple when a matching catalog
release is found.  Hence every appended record has `Side`/`url_mod`/
`url_download` either all at their zip defaults, all absent, or all
populated from the catalog. -/
theorem c2_amended (api : JsonVal → ApiResp) (c : Candidate) (st st' : ScanState)
    (h : processModFile api c st = .ok st') :
    st'.mods = st.mods ∨
    ∃ entry, st'.mods = st.mods ++ [entry] ∧
      ((dictGetOpt entry "Side" = some (.str "Unknown") ∧
        dictGetOpt entry "url_mod" = some (.str "Local mod only") ∧
        dictGetOpt entry "url_download" = some (.str "Local mod only")) ∨
       (dictGetOpt entry "Side" = none ∧ dictGetOpt entry "url_mod" = none ∧
        dictGetOpt entry "url_download" = none) ∨
       (∃ a s m, pyTruthy a = true ∧ pyTruthy m = true ∧
         dictGetOpt entry "Side" = some s ∧
         dictGetOpt entry "url_mod" = some (.str (MOD_DB_URL ++ pyStr a)) ∧
         dictGetOpt entry "url_download" = some m)) := by
  obtain ⟨nm, file⟩ := c
  cases file with
  | other =>
    simp only [processModFile] at h
    cases h
    exact Or.inl rfl
  | zip validity ent =>
    rcases validity with e | valid
    · simp only [processModFile] at h
      exact absurd h (by simp)
    · simp only [processModFile] at h
      cases valid with
      | false =>
        simp only [Bool.false_eq_true, if_false, Except.ok.injEq] at h
        cases h
        exact Or.inl rfl
      | true =>
        simp only [if_true] at h
        by_cases hchk : (pyTruthy (getModinfoFromZip ent).1 &&
            pyTruthy (getModinfoFromZip ent).2.1 &&
            pyTruthy (getModinfoFromZip ent).2.2.1) = true
        · rw [if_pos hchk] at h
          rcases hapi : getApiInfo (api (getModinfoFromZip ent).1) with e | apiRes <;>
            simp only [hapi] at h
          · exact absurd h (by simp)
          · by_cases ha : pyTruthy (apiRes.getD (.null, .null, .arr [])).1 = true
            · rw [if_pos ha] at h
              rcases hmf : getMainfileForVersion (getModinfoFromZip ent).2.2.1
                  (apiRes.getD (.null, .null, .arr [])).2.2 with e2 | mf <;> simp only [hmf] at h
              · exact absurd h (by simp)
              · by_cases hm : pyTruthy mf = true
                · rw [if_pos hm] at h
                  cases h
                  refine Or.inr ⟨_, rfl, Or.inr (Or.inr
                    ⟨(apiRes.getD (.null, .null, .arr [])).1,
                     (apiRes.getD (.null, .null, .arr [])).2.1, mf, ha, hm, ?_, ?_, ?_⟩)⟩ <;>
                    simp [dictUpdate, dictSet, dictGetOpt]
                · rw [if_neg hm] at h
                  cases h
                  refine Or.inr ⟨_, rfl, Or.inl ⟨?_, ?_, ?_⟩⟩ <;> simp [dictGetOpt]
            · rw [if_neg ha] at h
              cases h
              refine Or.inr ⟨_, rfl, Or.inl ⟨?_, ?_, ?_⟩⟩ <;> simp [dictGetOpt]
        · rw [if_neg hchk] at h
          cases h
          exact Or.inl rfl
  | cs content =>
    simp only [processModFile] at h
    rcases hcs : getCsInfo content with e | r <;> simp only [hcs] at h
    · exact absurd h (by simp)
    · by_cases hchk : (optTruthy r.1 && optTruthy r.2.1 && optTruthy r.2.2.1 &&
          optTruthy r.2.2.2.1 && (r.2.2.2.2.1 != "")) = true
      · rw [if_pos hchk] at h
        rcases hapi : getApiInfo (api (.str (r.2.2.2.1.getD ""))) with e | apiRes <;>
          simp only [hapi] at h
        · exact absurd h (by simp)
        · by_cases ha : pyTruthy (apiRes.getD (.null, .null, .arr [])).1 = true
          · rw [if_pos ha] at h
            rcases hmf : getMainfileForVersion (.str (r.1.getD ""))
                (apiRes.getD (.null, .null, .arr [])).2.2 with e2 | mf <;> simp only [hmf] at h
            · exact absurd h (by simp)
            · by_cases hm : pyTruthy mf = true
              · rw [if_pos hm] at h
                cases h
                refine Or.inr ⟨_, rfl, Or.inr (Or.inr
                  ⟨(apiRes.getD (.null, .null, .arr [])).1,
                   (apiRes.getD (.null, .null, .arr [])).2.1, mf, ha, hm, ?_, ?_, ?_⟩)⟩ <;>
                  simp [dictUpdate, dictSet, dictGetOpt]
              · rw [if_neg hm] at h
                cases h
                refine Or.inr ⟨_, rfl, Or.inr (Or.inl ⟨?_, ?_, ?_⟩)⟩ <;> simp [dictGetOpt]
          · rw [if_neg ha] at h
            cases h
            refine Or.inr ⟨_, rfl, Or.inr (Or.inl ⟨?_, ?_, ?_⟩)⟩ <;> simp [dictGetOpt]
      · rw [if_neg hchk] at h
        cases h
        exact Or.inl rfl

/-- C2 (amended), witness: instantiated on a concrete `.cs` candidate
whose catalog request times out. -/
theorem c2_amended_witness :
    ([[("Name", JsonVal.str "Foo"), ("Version", JsonVal.str "1.0"),
       ("ModId", JsonVal.str "foo"), ("Description", JsonVal.null)]] : List PyDict)
      = ([] : List PyDict) ∨
    ∃ entry, ([[("Name", JsonVal.str "Foo"), ("Version", JsonVal.str "1.0"),
       ("ModId", JsonVal.str "foo"), ("Description", JsonVal.null)]] : List PyDict)
        = [] ++ [entry] ∧
      ((dictGetOpt entry "Side" = some (.str "Unknown") ∧
        dictGetOpt entry "url_mod" = some (.str "Local mod only") ∧
        dictGetOpt entry "url_download" = some (.str "Local mod only")) ∨
       (dictGetOpt entry "Side" = none ∧ dictGetOpt entry "url_mod" = none ∧
        dictGetOpt entry "url_download" = none) ∨
       (∃ a s m, pyTruthy a = true ∧ pyTruthy m = true ∧
         dictGetOpt entry "Side" = some s ∧
         dictGetOpt entry "url_mod" = some (.str (MOD_DB_URL ++ pyStr a)) ∧
         dictGetOpt entry "url_download" = some m)) :=
  c2_amended (fun _ => ApiResp.timeout)
    ⟨"m.cs", .cs (.ok "namespace Foo\nVersion = \"1.0\"\nSide = \"client\"")⟩
    ⟨[], []⟩
    ⟨[[("Name", JsonVal.str "Foo"), ("Version", JsonVal.str "1.0"),
       ("ModId", JsonVal.str "foo"), ("Description", JsonVal.null)]], []⟩
    (by rfl)

/-- C4, counterexample.  The claim says the repair removes a comma only
when it is a trailing comma, never altering commas inside string values,
and that comment stripping leaves every non-comment line byte-identical.
But on the valid descriptor text `{"a": ",]"}` — which has no trailing
comma, only a comma inside a string value — the repair deletes that comma
and changes the parsed value; and on `"  \n//c\nx"` the whitespace-only
first line is consumed by the comment match and is not left
byte-identical. -/
theorem c4_counterexample :
    pyJsonLoads "\x7b\"a\": \",]\"\x7d" = some (.obj [("a", .str ",]")])
  ∧ commaFix "\x7b\"a\": \",]\"\x7d" = "\x7b\"a\": \"]\"\x7d"
  ∧ commaFix "\x7b\"a\": \",]\"\x7d" ≠ "\x7b\"a\": \",]\"\x7d"
  ∧ pyJsonLoads (commaFix "\x7b\"a\": \",]\"\x7d") = some (.obj [("a", .str "]")])
  ∧ commentStrip "  \n//c\nx" = "\nx"
  ∧ commentStrip "  \n//c\nx" ≠ "  \n//c\nx" :=
  ⟨rfl, rfl, by decide, rfl, rfl, by decide⟩

/-- C4, amended: the trailing-comma substitution leaves a text unchanged
exactly when it contains no comma whose next non-whitespace character is a
closing brace or bracket — when such a comma exists it is removed even
inside a string literal — and comment stripping leaves a text unchanged
when no line's first non-whitespace characters are `//`; a comment match
also consumes whitespace-only lines immediately preceding the `//`. -/
theorem c4_amended :
    (∀ s : String, hasTrailingCommaPat s.data = false → commaFix s = s)
  ∧ (∀ s : String, hasCommentPat s.data true = false → commentStrip s = s)
  ∧ commaFix "\x7b\"a\": \",]\"\x7d" = "\x7b\"a\": \"]\"\x7d"
  ∧ commentStrip "  \n//c\nx" = "\nx" := by
  refine ⟨?_, ?_, rfl, rfl⟩
  · intro s h
    cases s with
    | mk data => rw [commaFix, commaFixGo_id _ _ h]
  · intro s h
    cases s with
    | mk data => rw [commentStrip, commentStripGo_id _ _ _ h]

/-- C4 (amended), witness: a text with no trailing-comma pattern and no
comment line passes through both substitutions unchanged. -/
theorem c4_amended_witness :
    hasTrailingCommaPat "[1, 2]".data = false ∧ commaFix "[1, 2]" = "[1, 2]"
  ∧ hasCommentPat "ab // x\ncd".data true = false
  ∧ commentStrip "ab // x\ncd" = "ab // x\ncd" :=
  ⟨by decide, c4_amended.1 "[1, 2]" (by decide),
   by decide, c4_amended.2.1 "ab // x\ncd" (by decide)⟩

/-- C5.  The version matcher scans the release sequence in its given
order and returns (inside `Except.ok` — it never raises on a release
list) the `mainfile` of the first release whose `modversion` tag compares
`==`-equal to the local version; when no tag matches — in particular on
the empty sequence — it returns Python `None`; and on string tags the
comparison is exact, case-sensitive string equality. -/
theorem c5_version_matcher :
    (∀ (v : String) (rs : List PyDict),
       getMainfileForVersion (.str v) (.arr (rs.map JsonVal.obj)) =
         .ok ((rs.find? (fun r => pyEq (.str v) (dictGetD r "modversion" (.arr [])))).elim
               JsonVal.null (fun r => dictGetD r "mainfile" .null)))
  ∧ (∀ v : String, getMainfileForVersion (.str v) (.arr []) = .ok .null)
  ∧ (∀ a b : String, pyEq (.str a) (.str b) = (a == b)) := by
  refine ⟨?_, fun v => rfl, fun a b => rfl⟩
  intro v rs
  induction rs with
  | nil => rfl
  | cons r rest ih =>
    simp only [List.map_cons, getMainfileForVersion, mainfileLoop] at ih ⊢
    rw [List.find?]
    by_cases hp : pyEq (.str v) (dictGetD r "modversion" (.arr [])) = true
    · simp [hp]
    · simp only [Bool.not_eq_true] at hp
      simp [hp, ih]

/-- C6, counterexample.  Normalization is not idempotent: the descriptor
`{"a": ",]"}` normalizes to a text whose string value contains a
literal `,]`; normalizing that output again re-runs the trailing-comma
repair inside the string value and produces a different text. -/
theorem c6_counterexample :
    fixJson "\x7b\"a\": \",\\u005d\"\x7d" = .ok "\x7b\n  \"a\": \",]\"\n\x7d"
  ∧ fixJson "\x7b\n  \"a\": \",]\"\n\x7d" = .ok "\x7b\n  \"a\": \"]\"\n\x7d"
  ∧ ("\x7b\n  \"a\": \",]\"\n\x7d" : String) ≠ "\x7b\n  \"a\": \"]\"\n\x7d" :=
  ⟨rfl, rfl, by decide⟩

/-- C6, amended: normalization is not idempotent in general — a
normalized output that carries a comma directly before a closing bracket
inside a string literal is repaired again differently — but it is
idempotent on every input whose repaired text fails to parse: those
normalize to the fixed sentinel string, and the sentinel normalizes to
itself. -/
theorem c6_amended :
    (∀ s : String, pyJsonLoads (commaFix (commentStrip s)) = none →
       fixJson s = .ok errSentinel)
  ∧ fixJson errSentinel = .ok errSentinel := by
  refine ⟨?_, rfl⟩
  intro s h
  simp only [fixJson, h]

/-- C6 (amended), witness: an unparseable input normalizes to the
sentinel. -/
theorem c6_amended_witness :
    pyJsonLoads (commaFix (commentStrip "garbage")) = none
  ∧ fixJson "garbage" = .ok errSentinel :=
  ⟨rfl, c6_amended.1 "garbage" (by rfl)⟩

/-- ALPHA, DIGIT, `-`, `.`, `_` and `~`: the RFC 3986 unreserved
characters, as bytes. -/
def rfcUnreservedByte (b : Nat) : Bool :=
  (48 ≤ b ∧ b ≤ 57) ∨ (65 ≤ b ∧ b ≤ 90) ∨ (97 ≤ b ∧ b ≤ 122) ∨
  b = 45 ∨ b = 46 ∨ b = 95 ∨ b = 126

/-- The RFC 3986 reserved characters (gen-delims and sub-delims), as
bytes. -/
def rfcReservedByte (b : Nat) : Bool :=
  b = 58 ∨ b = 47 ∨ b = 63 ∨ b = 35 ∨ b = 91 ∨ b = 93 ∨ b = 64 ∨
  b = 33 ∨ b = 36 ∨ b = 38 ∨ b = 39 ∨ b = 40 ∨ b = 41 ∨ b = 42 ∨
  b = 43 ∨ b = 44 ∨ b = 59 ∨ b = 61

/-- The query re-encoding as the specification words it: `=` and `&`
remain literal separators, unreserved bytes pass through, and every other
byte — in particular every other reserved character — is percent-encoded
with uppercase hex. -/
def specQueryEncodeByte (b : Nat) : List Char :=
  if b = 61 ∨ b = 38 then [Char.ofNat b]
  else if rfcUnreservedByte b then [Char.ofNat b]
  else ['%', hexUpper (b / 16 % 16), hexUpper (b % 16)]

/-- The whole-query re-encoding as the specification words it. -/
def specQueryEncode (s : String) : String :=
  String.mk ((strUtf8 s).flatMap specQueryEncodeByte)

/-- Byte for byte, `quote(..., safe="=&")` encodes exactly as the
specification's description of the re-encoding. -/
theorem quoteByteEqAmp_eq_spec (b : Nat) : quoteByteEqAmp b = specQueryEncodeByte b := by
  unfold quoteByteEqAmp specQueryEncodeByte
  split_ifs <;> try rfl
  all_goals
    simp only [quoteAlwaysSafe, rfcUnreservedByte, Bool.or_eq_true, decide_eq_true_eq] at *
  all_goals omega

/-- C7.  The download link builder is a pure function of the raw artifact
URL: whenever URL parsing succeeds it returns exactly the fixed canonical
CDN host, then the original URL's path, then `?`, then the query string
re-encoded so that `=` and `&` stay literal while every other reserved
character is percent-encoded (unreserved bytes pass through literally). -/
theorem c7_download_link_builder :
    (∀ raw path query : String, pyUrlparse raw = .ok (path, query) →
       makeDlLink raw = .ok (MOD_DOWNLOAD_BASE ++ path ++ "?" ++ specQueryEncode query))
  ∧ (∀ b : Nat, quoteByteEqAmp b = specQueryEncodeByte b)
  ∧ (∀ b : Nat, (b = 61 ∨ b = 38) → specQueryEncodeByte b = [Char.ofNat b])
  ∧ (∀ b : Nat, rfcReservedByte b = true → ¬ (b = 61 ∨ b = 38) →
       specQueryEncodeByte b = ['%', hexUpper (b / 16 % 16), hexUpper (b % 16)]) := by
  refine ⟨?_, quoteByteEqAmp_eq_spec, ?_, ?_⟩
  · intro raw path query h
    have hq : ∀ l : List Nat, l.flatMap quoteByteEqAmp = l.flatMap specQueryEncodeByte := by
      intro l
      induction l with
      | nil => rfl
      | cons b rest ih => simp [List.flatMap_cons, ih, quoteByteEqAmp_eq_spec]
    simp only [makeDlLink, h, pyQuoteEqAmp, specQueryEncode, hq]
  · intro b hb
    unfold specQueryEncodeByte
    rw [if_pos hb]
  · intro b hres hne
    have hun : ¬ (rfcUnreservedByte b = true) := by
      unfold rfcReservedByte at hres
      unfold rfcUnreservedByte
      simp only [Bool.or_eq_true, decide_eq_true_eq] at hres ⊢
      omega
    unfold specQueryEncodeByte
    rw [if_neg hne, if_neg hun]

/-- C7, witness: a concrete artifact URL with a space and separators in
its query. -/
theorem c7_witness :
    pyUrlparse "https://mods.vintagestory.at/files/mod.zip?dl=a b&v=1"
      = .ok ("/files/mod.zip", "dl=a b&v=1")
  ∧ makeDlLink "https://mods.vintagestory.at/files/mod.zip?dl=a b&v=1"
      = .ok (MOD_DOWNLOAD_BASE ++ "/files/mod.zip" ++ "?" ++ specQueryEncode "dl=a b&v=1")
  ∧ specQueryEncode "dl=a b&v=1" = "dl=a%20b&v=1"
  ∧ specQueryEncodeByte 61 = [Char.ofNat 61]
  ∧ specQueryEncodeByte 47 = ['%', hexUpper (47 / 16 % 16), hexUpper (47 % 16)] :=
  ⟨rfl,
   c7_download_link_builder.1 "https://mods.vintagestory.at/files/mod.zip?dl=a b&v=1"
     "/files/mod.zip" "dl=a b&v=1" (by rfl),
   rfl,
   c7_download_link_builder.2.2.1 61 (Or.inl rfl),
   c7_download_link_builder.2.2.2 47 (by decide) (by decide)⟩

/-- `lexLeCh` is total. -/
theorem lexLeCh_total : ∀ a b : List Char, lexLeCh a b = true ∨ lexLeCh b a = true := by
  intro a
  induction a with
  | nil => intro b; exact Or.inl rfl
  | cons x xs ih =>
    intro b
    cases b with
    | nil => exact Or.inr rfl
    | cons y ys =>
      by_cases h1 : x.toNat < y.toNat
      · left; simp [lexLeCh, h1]
      · by_cases h2 : y.toNat < x.toNat
        · right; simp [lexLeCh, h2]
        · rcases ih ys with h | h
          · left; simp [lexLeCh, h1, h2, h]
          · right; simp [lexLeCh, h1, h2, h]

/-- `lexLeCh` is transitive. -/
theorem lexLeCh_trans : ∀ a b c : List Char,
    lexLeCh a b = true → lexLeCh b c = true → lexLeCh a c = true := by
  intro a
  induction a with
  | nil => intro b c _ _; rfl
  | cons x xs ih =>
    intro b c hab hbc
    cases b with
    | nil => simp [lexLeCh] at hab
    | cons y ys =>
      cases c with
      | nil => simp [lexLeCh] at hbc
      | cons z zs =>
        by_cases hxy : x.toNat < y.toNat <;> by_cases hyz : y.toNat < z.toNat
        · simp [lexLeCh]; omega
        · by_cases hzy : z.toNat < y.toNat
          · simp only [lexLeCh, hyz, if_false, hzy, if_true] at hbc
            exact absurd hbc (by simp)
          · have : y.toNat = z.toNat := by omega
            simp [lexLeCh]; omega
        · simp only [lexLeCh, hxy, if_false] at hab
          by_cases hyx : y.toNat < x.toNat
          · rw [if_pos hyx] at hab; exact absurd hab (by simp)
          · simp [lexLeCh]; omega
        · simp only [lexLeCh, hxy, if_false] at hab
          by_cases hyx : y.toNat < x.toNat
          · rw [if_pos hyx] at hab; exact absurd hab (by simp)
          · rw [if_neg hyx] at hab
            simp only [lexLeCh, hyz, if_false] at hbc
            by_cases hzy : z.toNat < y.toNat
            · rw [if_pos hzy] at hbc; exact absurd hbc (by simp)
            · rw [if_neg hzy] at hbc
              have hxz : ¬ x.toNat < z.toNat → ¬ z.toNat < x.toNat := by omega
              by_cases h3 : x.toNat < z.toNat
              · simp [lexLeCh, h3]
              · simp [lexLeCh, h3, hxz h3, ih ys zs hab hbc]

/-- Everything in `insertSorted le x l` is `x` or from `l`. -/
theorem insertSorted_mem (le : α → α → Bool) (x : α) (l : List α) :
    ∀ z ∈ insertSorted le x l, z = x ∨ z ∈ l := by
  induction l with
  | nil => intro z hz; simp [insertSorted] at hz; exact Or.inl hz
  | cons y ys ih =>
    intro z hz
    rw [insertSorted] at hz
    by_cases hy : le y x = true
    · rw [if_pos hy] at hz
      rcases List.mem_cons.mp hz with rfl | hz2
      · exact Or.inr (List.mem_cons_self _ _)
      · rcases ih z hz2 with h | h
        · exact Or.inl h
        · exact Or.inr (List.mem_cons_of_mem _ h)
    · rw [if_neg hy] at hz
      rcases List.mem_cons.mp hz with rfl | hz2
      · exact Or.inl rfl
      · exact Or.inr hz2

/-- Inserting into a sorted list keeps it sorted, for a total transitive
comparison. -/
theorem insertSorted_pairwise (le : α → α → Bool)
    (htrans : ∀ a b c, le a b = true → le b c = true → le a c = true)
    (htotal : ∀ a b, le a b = true ∨ le b a = true) (x : α) (l : List α)
    (h : l.Pairwise (fun a b => le a b = true)) :
    (insertSorted le x l).Pairwise (fun a b => le a b = true) := by
  induction l with
  | nil => simp [insertSorted]
  | cons y ys ih =>
    rw [insertSorted]
    rw [List.pairwise_cons] at h
    by_cases hy : le y x = true
    · rw [if_pos hy]
      rw [List.pairwise_cons]
      constructor
      · intro z hz
        rcases insertSorted_mem le x ys z hz with rfl | hz2
        · exact hy
        · exact h.1 z hz2
      · exact ih h.2
    · rw [if_neg hy]
      have hxy : le x y = true := (htotal x y).resolve_right (fun hc => hy hc)
      rw [List.pairwise_cons]
      constructor
      · intro z hz
        rcases List.mem_cons.mp hz with rfl | hz2
        · exact hxy
        · exact htrans x y z hxy (h.1 z hz2)
      · rw [List.pairwise_cons]
        exact h

/-- Everything in `pySort le l` is from `l`. -/
theorem pySort_mem (le : α → α → Bool) (l : List α) :
    ∀ z ∈ pySort le l, z ∈ l := by
  suffices hgen : ∀ acc : List α, ∀ z ∈ l.foldl (fun a x => insertSorted le x a) acc,
      z ∈ acc ∨ z ∈ l by
    intro z hz
    rcases hgen [] z hz with h | h
    · exact absurd h (List.not_mem_nil z)
    · exact h
  induction l with
  | nil => intro acc z hz; exact Or.inl hz
  | cons x xs ih =>
    intro acc z hz
    rw [List.foldl_cons] at hz
    rcases ih (insertSorted le x acc) z hz with h | h
    · rcases insertSorted_mem le x acc z h with rfl | h2
      · exact Or.inr (List.mem_cons_self _ _)
      · exact Or.inl h2
    · exact Or.inr (List.mem_cons_of_mem _ h)

/-- The stable sort sorts: its output is pairwise ordered. -/
theorem pySort_pairwise (le : α → α → Bool)
    (htrans : ∀ a b c, le a b = true → le b c = true → le a c = true)
    (htotal : ∀ a b, le a b = true ∨ le b a = true) (l : List α) :
    (pySort le l).Pairwise (fun a b => le a b = true) := by
  suffices hgen : ∀ acc : List α, acc.Pairwise (fun a b => le a b = true) →
      (l.foldl (fun a x => insertSorted le x a) acc).Pairwise (fun a b => le a b = true) from
    hgen [] (List.Pairwise.nil)
  induction l with
  | nil => intro acc h; exact h
  | cons x xs ih =>
    intro acc h
    rw [List.foldl_cons]
    exact ih (insertSorted le x acc) (insertSorted_pairwise le htrans htotal x acc h)

/-- When decorating succeeds, every decorated pair carries exactly its
record's computed key. -/
theorem mapM_modKey_ok : ∀ (ms : List PyDict) (keyed : List (String × PyDict)),
    ms.mapM (fun r => (modKey r).map (fun k => (k, r))) = .ok keyed →
    ∀ p ∈ keyed, modKey p.2 = .ok p.1 := by
  intro ms
  induction ms with
  | nil =>
    intro keyed h p hp
    simp only [List.mapM_nil, pure, Except.pure, Except.ok.injEq] at h
    subst h
    exact absurd hp (List.not_mem_nil p)
  | cons r rest ih =>
    intro keyed h p hp
    rw [List.mapM_cons] at h
    rcases hk : modKey r with e | k <;> rw [hk] at h
    · exact absurd h (by simp [Except.map, bind, Except.bind])
    · rcases hrest : rest.mapM (fun r => (modKey r).map (fun k => (k, r))) with e | ks <;>
        rw [hrest] at h
      · exact absurd h (by simp [Except.map, bind, Except.bind, pure, Except.pure])
      · simp only [Except.map, bind, Except.bind, pure, Except.pure, Except.ok.injEq] at h
        subst h
        rcases List.mem_cons.mp hp with rfl | hp2
        · exact hk
        · exact ih ks hrest p hp2

/-- `lexLeCh l [] = true` forces `l = []`. -/
theorem lexLeCh_nil_right (l : List Char) (h : lexLeCh l [] = true) : l = [] := by
  cases l with
  | nil => rfl
  | cons c cs => simp [lexLeCh] at h

/-- A sorted record list is pairwise ordered by the records' own keys,
and a record keyed by the empty string never follows one with a nonempty
key. -/
theorem sortMods_pairwise (ms sorted : List PyDict) (h : sortMods ms = .ok sorted) :
    sorted.Pairwise (fun a b => ∀ ka kb, modKey a = .ok ka → modKey b = .ok kb →
      lexLeCh ka.data kb.data = true ∧ (kb = "" → ka = "")) := by
  unfold sortMods at h
  rcases hk : ms.mapM (fun r => (modKey r).map (fun k => (k, r))) with e | keyed <;>
    rw [hk] at h
  · exact absurd h (by simp)
  · simp only [Except.ok.injEq] at h
    subst h
    rw [List.pairwise_map]
    have hsorted := pySort_pairwise (fun a b : String × PyDict => lexLeCh a.1.data b.1.data)
      (fun a b c hab hbc => lexLeCh_trans a.1.data b.1.data c.1.data hab hbc)
      (fun a b => lexLeCh_total a.1.data b.1.data) keyed
    refine hsorted.imp_of_mem ?_
    intro p q hp hq hle ka kb hka hkb
    have hpk := mapM_modKey_ok ms keyed hk p (pySort_mem _ keyed p hp)
    have hqk := mapM_modKey_ok ms keyed hk q (pySort_mem _ keyed q hq)
    rw [hka] at hpk
    rw [hkb] at hqk
    cases hpk
    cases hqk
    refine ⟨hle, fun hkb0 => ?_⟩
    rw [hkb0] at hle
    exact String.ext (lexLeCh_nil_right _ hle)

/-- A completed scan's record list comes from `sortMods` applied to the
accumulated records. -/
theorem listModsFrom_sorted : ∀ (cands : List Candidate) (api : JsonVal → ApiResp)
    (st : ScanState) (m : Manifest), listModsFrom api st cands = .ok m →
    ∃ ms, sortMods ms = .ok m.mods := by
  intro cands
  induction cands with
  | nil =>
    intro api st m h
    rw [listModsFrom] at h
    rcases hs : sortMods st.mods with e | sorted <;> rw [hs] at h
    · exact absurd h (by simp)
    · simp only [Except.ok.injEq] at h
      subst h
      exact ⟨st.mods, hs⟩
  | cons c rest ih =>
    intro api st m h
    rw [listModsFrom] at h
    rcases hp : processModFile api c st with e | st2 <;> rw [hp] at h
    · exact absurd h (by simp)
    · exact ih api st2 m h

/-- C8.  In every manifest the scan completes, the resolved records are
sorted: for any record preceding another, the former's case-insensitive
`mod_id` key is lexicographically no greater than the latter's, and a
record keyed by the empty string precedes every record with a nonempty
key. -/
theorem c8_manifest_sorted (api : JsonVal → ApiResp) (cands : List Candidate)
    (m : Manifest) (h : listMods api cands = .ok m) :
    m.mods.Pairwise (fun a b => ∀ ka kb, modKey a = .ok ka → modKey b = .ok kb →
      lexLeCh ka.data kb.data = true ∧ (kb = "" → ka = "")) := by
  obtain ⟨ms, hms⟩ := listModsFrom_sorted cands api ⟨[], []⟩ m h
  exact sortMods_pairwise ms m.mods hms

/-- C8, witness: two zip candidates with mod ids `Zeta` and `alpha`
produce a manifest ordering `alpha` before `Zeta` (case-insensitive), and
the sortedness theorem applies to it. -/
theorem c8_witness :
    ([[("Name", JsonVal.str "A"), ("Version", .str "1"), ("ModId", .str "alpha"),
       ("Description", .null), ("Side", .str "Unknown"),
       ("url_mod", .str "Local mod only"), ("url_download", .str "Local mod only")],
      [("Name", JsonVal.str "Z"), ("Version", .str "1"), ("ModId", .str "Zeta"),
       ("Description", .null), ("Side", .str "Unknown"),
       ("url_mod", .str "Local mod only"),
       ("url_download", .str "Local mod only")]] : List PyDict).Pairwise
      (fun a b => ∀ ka kb, modKey a = .ok ka → modKey b = .ok kb →
        lexLeCh ka.data kb.data = true ∧ (kb = "" → ka = "")) :=
  c8_manifest_sorted (fun _ => ApiResp.timeout)
    [⟨"z.zip", .zip (.ok true) (some (.ok
        "\x7b\"modid\":\"Zeta\",\"name\":\"Z\",\"version\":\"1\"\x7d"))⟩,
     ⟨"a.zip", .zip (.ok true) (some (.ok
        "\x7b\"modid\":\"alpha\",\"name\":\"A\",\"version\":\"1\"\x7d"))⟩]
    ⟨[[("Name", JsonVal.str "A"), ("Version", .str "1"), ("ModId", .str "alpha"),
       ("Description", .null), ("Side", .str "Unknown"),
       ("url_mod", .str "Local mod only"), ("url_download", .str "Local mod only")],
      [("Name", JsonVal.str "Z"), ("Version", .str "1"), ("ModId", .str "Zeta"),
       ("Description", .null), ("Side", .str "Unknown"),
       ("url_mod", .str "Local mod only"), ("url_download", .str "Local mod only")]], []⟩
    (by rfl)

/-- C9, counterexample.  The claim says `fix_json` is total on strings and
never raises.  On the input `"3"` — whose repaired text parses to the JSON
number 3 — `"website" in data` raises an uncaught `TypeError`, because an
`int` is not a container. -/
theorem c9_counterexample : fixJson "3" = .error .typeError := rfl

/-- C9, amended: whenever the repaired text fails to parse as JSON,
`fix_json` returns the fixed sentinel string rather than raising; the
sentinel itself does not parse as JSON, so the archive reader's subsequent
parse of it fails and the candidate is classified invalid.  (`fix_json` is
not total: a repaired text parsing to a number or boolean raises a
`TypeError` at the website-removal step, which the archive reader's
blanket handler also turns into an invalid classification.) -/
theorem c9_amended :
    (∀ s : String, pyJsonLoads (commaFix (commentStrip s)) = none →
       fixJson s = .ok errSentinel)
  ∧ pyJsonLoads errSentinel = none
  ∧ (∀ (api : JsonVal → ApiResp) (nm raw : String) (st : ScanState),
       pyJsonLoads (commaFix (commentStrip raw)) = none →
       processModFile api ⟨nm, .zip (.ok true) (some (.ok raw))⟩ st
         = .ok ⟨st.mods, st.invalid ++ [nm]⟩)
  ∧ (∀ (api : JsonVal → ApiResp) (nm : String) (st : ScanState),
       processModFile api ⟨nm, .zip (.ok true) (some (.ok "3"))⟩ st
         = .ok ⟨st.mods, st.invalid ++ [nm]⟩) := by
  refine ⟨?_, rfl, ?_, ?_⟩
  · intro s h
    simp only [fixJson, h]
  · intro api nm raw st h
    have h1 : fixJson raw = .ok errSentinel := by simp only [fixJson, h]
    have h2 : pyJsonLoads errSentinel = none := rfl
    simp only [processModFile, getModinfoFromZip, h1, h2]
    rfl
  · intro api nm st
    rfl

/-- C9 (amended), witness: an unparseable descriptor text flows through
the sentinel into an invalid classification. -/
theorem c9_amended_witness :
    pyJsonLoads (commaFix (commentStrip "not json")) = none
  ∧ fixJson "not json" = .ok errSentinel
  ∧ processModFile (fun _ => ApiResp.timeout)
      ⟨"bad.zip", .zip (.ok true) (some (.ok "not json"))⟩ ⟨[], []⟩
      = .ok ⟨[], ["bad.zip"]⟩ :=
  ⟨rfl, c9_amended.1 "not json" (by rfl),
   c9_amended.2.2.1 (fun _ => ApiResp.timeout) "bad.zip" "not json" ⟨[], []⟩ (by rfl)⟩

/-- C10.  The required-field checks test truthiness, not presence: a
`.zip` candidate whose `modid`, `name` or `version` comes back as the
empty string — in particular a JSON `null` that the sanitizer turned into
an empty string — or as `None`, is classified invalid exactly like one
with the field absent; likewise a `.cs` candidate whose `version`, `side`,
`namespace` or `modid` is `None` or the empty string. -/
theorem c10_truthiness_checks :
    (∀ (api : JsonVal → ApiResp) (nm : String) (ent : Option (Except PyExc String))
       (st : ScanState) (modid nm2 ver u d : JsonVal),
       getModinfoFromZip ent = (modid, nm2, ver, u, d) →
       (modid = .str "" ∨ modid = .null ∨ nm2 = .str "" ∨ nm2 = .null ∨
        ver = .str "" ∨ ver = .null) →
       processModFile api ⟨nm, .zip (.ok true) ent⟩ st = .ok ⟨st.mods, st.invalid ++ [nm]⟩)
  ∧ (∀ (api : JsonVal → ApiResp) (nm content : String) (st : ScanState)
       (r : Option String × Option String × Option String ×
            Option String × String × Option String),
       getCsInfo (.ok content) = .ok r →
       (r.1 = none ∨ r.1 = some "" ∨ r.2.1 = none ∨ r.2.1 = some "" ∨
        r.2.2.1 = none ∨ r.2.2.1 = some "" ∨ r.2.2.2.1 = none ∨ r.2.2.2.1 = some "") →
       processModFile api ⟨nm, .cs (.ok content)⟩ st = .ok ⟨st.mods, st.invalid ++ [nm]⟩)
  ∧ sanitizeJsonData .null = .str ""
  ∧ pyTruthy (.str "") = false ∧ pyTruthy .null = false := by
  refine ⟨?_, ?_, rfl, rfl, rfl⟩
  · intro api nm ent st modid nm2 ver u d hr hf
    have hfalse : (pyTruthy modid && pyTruthy nm2 && pyTruthy ver) = false := by
      rcases hf with h | h | h | h | h | h <;> subst h <;> simp [pyTruthy]
    simp only [processModFile, hr, hfalse, Bool.false_eq_true, if_false, if_true]
  · intro api nm content st r hcs hf
    have hfalse : (optTruthy r.1 && optTruthy r.2.1 && optTruthy r.2.2.1 &&
        optTruthy r.2.2.2.1 && (r.2.2.2.2.1 != "")) = false := by
      rcases hf with h | h | h | h | h | h | h | h <;> rw [h] <;> simp [optTruthy]
    simp only [processModFile, hcs, hfalse, Bool.false_eq_true, if_false]

/-- C10, witness: a descriptor with `"modid": null` (sanitized to the
empty string) is classified invalid, and a `.cs` file without a `Side`
assignment is classified invalid. -/
theorem c10_witness :
    getModinfoFromZip (some (.ok
        "\x7b\"modid\": null, \"name\": \"x\", \"version\": \"1\"\x7d"))
      = (.str "", .str "x", .str "1",
         .str "https://mods.vintagestory.at/api/mod/", .null)
  ∧ processModFile (fun _ => ApiResp.timeout)
      ⟨"n.zip", .zip (.ok true) (some (.ok
        "\x7b\"modid\": null, \"name\": \"x\", \"version\": \"1\"\x7d"))⟩ ⟨[], []⟩
      = .ok ⟨[], ["n.zip"]⟩
  ∧ processModFile (fun _ => ApiResp.timeout)
      ⟨"n.cs", .cs (.ok "Version = \"1.0\"\nnamespace Foo")⟩ ⟨[], []⟩
      = .ok ⟨[], ["n.cs"]⟩ :=
  ⟨by rfl,
   c10_truthiness_checks.1 (fun _ => ApiResp.timeout) "n.zip" _ ⟨[], []⟩
     (.str "") (.str "x") (.str "1")
     (.str "https://mods.vintagestory.at/api/mod/") .null (by rfl) (Or.inl rfl),
   c10_truthiness_checks.2.1 (fun _ => ApiResp.timeout) "n.cs"
     "Version = \"1.0\"\nnamespace Foo" ⟨[], []⟩
     (some "1.0", none, some "Foo", some "foo",
      "https://mods.vintagestory.at/api/mod/foo", none) (by rfl)
     (Or.inr (Or.inr (Or.inl rfl)))⟩
